import Mathlib

/-!
Formal model of `generate_test_audio.py`: a test-audio generator that
synthesizes pure tones, low-pass filtered noise, multi-tone mixtures,
frequency sweeps and silence, quantizes them to 16-bit PCM and writes
them as WAV files through a fixed catalog driver.

Float samples are modelled as real numbers; the sample-count arithmetic
(`int(sample_rate * duration)`) is modelled exactly over the rationals.
External library calls (the Gaussian draw of `np.random.normal` and the
Butterworth design of `signal.butter`) are modelled as explicit
parameters: the drawn noise sequence and the designed coefficient pair
are inputs to the corresponding definitions.
-/

namespace GenAudio

/-- Truncation toward zero of a rational, the semantics of Python `int()`
applied to `sample_rate * duration`. -/
def ratTrunc (q : ℚ) : ℤ := if 0 ≤ q then ⌊q⌋ else ⌈q⌉

/-- Number of samples produced by `np.linspace(0, duration,
int(sample_rate * duration), False)` and by `np.random.normal(0, amp,
int(sample_rate * duration))`. -/
def numSamples (r d : ℚ) : ℕ := (ratTrunc (r * d)).toNat

/-- The `i`-th time point of `np.linspace(0, duration, N, endpoint=False)`
with `N = numSamples r d`: step `duration / N`, so `t i = i * d / N`. -/
noncomputable def timeGrid (r d : ℚ) (i : ℕ) : ℝ :=
  (i : ℝ) * (d : ℝ) / (numSamples r d : ℝ)

/-- `generate_sine_wave(frequency, sample_rate, duration, amplitude)`:
`amplitude * np.sin(2 * np.pi * frequency * t)` on the linspace grid. -/
noncomputable def generate_sine_wave (frequency : ℝ) (r d : ℚ)
    (amplitude : ℝ) : List ℝ :=
  (List.range (numSamples r d)).map fun i =>
    amplitude * Real.sin (2 * Real.pi * frequency * timeGrid r d i)

/-- The un-normalized multi-tone sum of `generate_multi_tone`: the loop
`for freq, amp in zip(frequencies, amplitudes): wave += amp * sin(2 pi freq t)`. -/
noncomputable def multiToneSum (frequencies amplitudes : List ℝ)
    (r d : ℚ) : List ℝ :=
  (List.range (numSamples r d)).map fun i =>
    ((frequencies.zip amplitudes).map fun p =>
      p.2 * Real.sin (2 * Real.pi * p.1 * timeGrid r d i)).sum

/-- `np.max(np.abs(wave))` over a buffer (0 for the empty buffer). -/
noncomputable def peak (xs : List ℝ) : ℝ := xs.foldr (fun x m => max |x| m) 0

/-- `generate_multi_tone(frequencies, amplitudes, sample_rate, duration)`:
sum the components, then `if max_val > 1.0: wave = wave / max_val * 0.9`. -/
noncomputable def generate_multi_tone (frequencies amplitudes : List ℝ)
    (r d : ℚ) : List ℝ :=
  let wave := multiToneSum frequencies amplitudes r d
  let maxVal := peak wave
  if 1 < maxVal then wave.map (fun x => x / maxVal * 0.9) else wave

/-- The instantaneous phase of `generate_sweep`:
`2 * np.pi * (start_freq * t + (end_freq - start_freq) * t**2 / (2 * duration))`. -/
noncomputable def sweepPhase (start_freq end_freq : ℝ) (d : ℚ) (t : ℝ) : ℝ :=
  2 * Real.pi *
    (start_freq * t + (end_freq - start_freq) * t ^ 2 / (2 * (d : ℝ)))

/-- `generate_sweep(start_freq, end_freq, sample_rate, duration, amplitude)`. -/
noncomputable def generate_sweep (start_freq end_freq : ℝ) (r d : ℚ)
    (amplitude : ℝ) : List ℝ :=
  (List.range (numSamples r d)).map fun i =>
    amplitude * Real.sin (sweepPhase start_freq end_freq d (timeGrid r d i))

/-- `np.zeros(int(SAMPLE_RATE * DURATION))`, the silence buffer. -/
noncomputable def silenceBuffer (r d : ℚ) : List ℝ :=
  List.replicate (numSamples r d) 0

/-! ### The IIR filtering stage (`scipy.signal.lfilter` / `filtfilt`) -/

/-- Dot product of a coefficient list against the most-recent-first history
of a signal, truncated to the shorter length. -/
noncomputable def dotShort (cs xs : List ℝ) : ℝ :=
  ((cs.zip xs).map fun p => p.1 * p.2).sum

/-- One-pass IIR difference equation
`y[n] = (sum_k b[k] x[n-k] - sum_{k >= 1} a[k] y[n-k]) / a[0]`, carrying the
most-recent-first histories of inputs and outputs. -/
noncomputable def lfilterGo (b a : List ℝ) :
    List ℝ → List ℝ → List ℝ → List ℝ
  | [], _, _ => []
  | xn :: rest, px, py =>
    let yn := (dotShort b (xn :: px) - dotShort a.tail py) / a.headD 1
    yn :: lfilterGo b a rest (xn :: px) (yn :: py)

/-- `scipy.signal.lfilter(b, a, x)`: causal IIR filter, same length as `x`. -/
noncomputable def lfilter (b a x : List ℝ) : List ℝ := lfilterGo b a x [] []

/-- The left odd-reflection extension of length `p` used by `filtfilt`'s
default `padtype='odd'`: element `j` is `2*x[0] - x[p-j]`. -/
noncomputable def oddPadLeft (p : ℕ) (x : List ℝ) : List ℝ :=
  (List.range p).map fun j => 2 * x.headD 0 - x.getD (p - j) 0

/-- The right odd-reflection extension of length `p` used by `filtfilt`:
element `j` is `2*x[last] - x[n-2-j]`. -/
noncomputable def oddPadRight (p : ℕ) (x : List ℝ) : List ℝ :=
  (List.range p).map fun j =>
    2 * (x.getLast?.getD 0) - x.getD (x.length - 2 - j) 0

/-- `scipy.signal.filtfilt(b, a, x)` with its defaults: odd-pad by
`padlen = 3 * max(len(a), len(b))`, filter forward, filter the reverse,
reverse back, and slice the middle `len(x)` samples out. -/
noncomputable def filtfilt (b a x : List ℝ) : List ℝ :=
  let p := 3 * max a.length b.length
  let ext := oddPadLeft p x ++ x ++ oddPadRight p x
  let y1 := lfilter b a ext
  let y2 := (lfilter b a y1.reverse).reverse
  (y2.drop p).take x.length

/-- `generate_lowpass_noise(cutoff, sample_rate, duration, amplitude)`.
The Gaussian draw `np.random.normal(0, amplitude, int(r*d))` is modelled by
the explicit sample stream `noiseDraw`; the Butterworth coefficients
`b, a = signal.butter(4, cutoff/(r/2), 'low')` are the explicit parameters
`b`, `a`. The filtered noise is returned with no re-normalization. -/
noncomputable def generate_lowpass_noise (b a : List ℝ) (r d : ℚ)
    (noiseDraw : ℕ → ℝ) : List ℝ :=
  filtfilt b a ((List.range (numSamples r d)).map noiseDraw)

/-! ### Quantize-and-write (`save_wav`) -/

/-- Truncation toward zero of a real, the semantics of the
float-to-integer narrowing in `astype(np.int16)`. -/
noncomputable def realTrunc (x : ℝ) : ℤ := if 0 ≤ x then ⌊x⌋ else ⌈x⌉

/-- Wrap an integer into the signed 16-bit range, the native wrap-around
(mod 2^16) behavior of the `np.int16` narrowing. -/
def wrap16 (n : ℤ) : ℤ := (n + 2 ^ 15) % 2 ^ 16 - 2 ^ 15

/-- `(data * 32767).astype(np.int16)` on one sample: scale by 32767,
truncate toward zero, wrap into int16 — no clamping. -/
noncomputable def quantize16 (x : ℝ) : ℤ := wrap16 (realTrunc (x * 32767))

/-- Serialize one int16 value (already wrapped) as two little-endian bytes. -/
def int16ToBytes (n : ℤ) : List ℕ :=
  [(n % 2 ^ 16).toNat % 256, (n % 2 ^ 16).toNat / 256]

/-- The WAV container written by `scipy.io.wavfile.write`: mono 16-bit PCM;
the header stores the sample rate, the data chunk holds the little-endian
16-bit samples. -/
structure WavFile where
  sampleRate : ℕ
  dataBytes : List ℕ

/-- `save_wav(filename, data, sample_rate)`: quantize every sample and write
the PCM payload with the given sample rate. -/
noncomputable def save_wav (data : List ℝ) (sample_rate : ℕ) : WavFile :=
  ⟨sample_rate, data.flatMap fun x => int16ToBytes (quantize16 x)⟩

/-- Parse a little-endian 16-bit PCM payload back into signed integers,
as `scipy.io.wavfile.read` does for a 16-bit mono file. -/
def parseBytes : List ℕ → List ℤ
  | b0 :: b1 :: rest =>
    (if b0 + 256 * b1 < 2 ^ 15 then ((b0 + 256 * b1 : ℕ) : ℤ)
     else ((b0 + 256 * b1 : ℕ) : ℤ) - 2 ^ 16) :: parseBytes rest
  | _ => []

/-- Read back a written WAV container: its sample rate and its samples. -/
def readWav (w : WavFile) : ℕ × List ℤ := (w.sampleRate, parseBytes w.dataBytes)

/-! ### The driver catalog (`main`) -/

/-- A generation request, one per catalog entry of `main`. -/
inductive GenSpec where
  | pureTone (frequency : ℝ)
  | lowpassNoise (cutoff : ℝ)
  | multiTone (frequencies amplitudes : List ℝ)
  | sweep (start_freq end_freq : ℝ)
  | silence

def GenSpec.isPure : GenSpec → Bool
  | .pureTone _ => true
  | _ => false

def GenSpec.isNoise : GenSpec → Bool
  | .lowpassNoise _ => true
  | _ => false

def GenSpec.isMulti : GenSpec → Bool
  | .multiTone _ _ => true
  | _ => false

def GenSpec.isSweep : GenSpec → Bool
  | .sweep _ _ => true
  | _ => false

def GenSpec.isSilence : GenSpec → Bool
  | .silence => true
  | _ => false

/-- `SAMPLE_RATE = 44100`. -/
def SAMPLE_RATE : ℚ := 44100

/-- `DURATION = 5.0`. -/
def DURATION : ℚ := 5

/-- The fixed catalog of `main`, in execution order: the six pure tones of
step 1, the four low-pass noise cutoffs of step 2, the three multi-tone
mixtures of step 3, the three sweeps of step 4, the silence file of step 5,
and the six very-low-frequency pure tones of step 6. -/
noncomputable def catalog : List (GenSpec × String) :=
  [ (.pureTone 50, "50hz_pure_tone.wav"),
    (.pureTone 100, "100hz_pure_tone.wav"),
    (.pureTone 200, "200hz_pure_tone.wav"),
    (.pureTone 440, "440hz_pure_tone.wav"),
    (.pureTone 1000, "1000hz_pure_tone.wav"),
    (.pureTone 5000, "5000hz_pure_tone.wav"),
    (.lowpassNoise 50, "lowpass_50hz_noise.wav"),
    (.lowpassNoise 100, "lowpass_100hz_noise.wav"),
    (.lowpassNoise 200, "lowpass_200hz_noise.wav"),
    (.lowpassNoise 500, "lowpass_500hz_noise.wav"),
    (.multiTone [100, 200, 300] [0.3, 0.2, 0.1],
      "multi_tone_100_200_300hz.wav"),
    (.multiTone [50, 100, 500, 1000] [0.25, 0.25, 0.15, 0.1],
      "multi_tone_50_100_500_1000hz.wav"),
    (.multiTone [440, 880, 1320] [0.3, 0.2, 0.15],
      "multi_tone_harmonic_440hz.wav"),
    (.sweep 20 200, "sweep_20_to_200hz.wav"),
    (.sweep 100 5000, "sweep_100_to_5000hz.wav"),
    (.sweep 5000 20000, "sweep_5k_to_20khz.wav"),
    (.silence, "silence.wav"),
    (.pureTone 20, "20hz_pure_tone.wav"),
    (.pureTone 30, "30hz_pure_tone.wav"),
    (.pureTone 40, "40hz_pure_tone.wav"),
    (.pureTone 60, "60hz_pure_tone.wav"),
    (.pureTone 80, "80hz_pure_tone.wav"),
    (.pureTone 90, "90hz_pure_tone.wav") ]

/-- The filenames written by `main`, in execution order. -/
def catalogNames : List String :=
  [ "50hz_pure_tone.wav",
    "100hz_pure_tone.wav",
    "200hz_pure_tone.wav",
    "440hz_pure_tone.wav",
    "1000hz_pure_tone.wav",
    "5000hz_pure_tone.wav",
    "lowpass_50hz_noise.wav",
    "lowpass_100hz_noise.wav",
    "lowpass_200hz_noise.wav",
    "lowpass_500hz_noise.wav",
    "multi_tone_100_200_300hz.wav",
    "multi_tone_50_100_500_1000hz.wav",
    "multi_tone_harmonic_440hz.wav",
    "sweep_20_to_200hz.wav",
    "sweep_100_to_5000hz.wav",
    "sweep_5k_to_20khz.wav",
    "silence.wav",
    "20hz_pure_tone.wav",
    "30hz_pure_tone.wav",
    "40hz_pure_tone.wav",
    "60hz_pure_tone.wav",
    "80hz_pure_tone.wav",
    "90hz_pure_tone.wav" ]

/-- Dispatch one catalog entry to its generator, as `main` does.
`design` models `signal.butter` (cutoff to coefficient pair) and `rng`
models the unseeded `np.random.normal` stream; only the low-pass-noise
branch reads either. `main` uses amplitude 0.5 for tones and sweeps. -/
noncomputable def renderSpec (design : ℝ → List ℝ × List ℝ) (rng : ℕ → ℝ)
    (r d : ℚ) : GenSpec → List ℝ
  | .pureTone f => generate_sine_wave f r d 0.5
  | .lowpassNoise c => generate_lowpass_noise (design c).1 (design c).2 r d rng
  | .multiTone fs as => generate_multi_tone fs as r d
  | .sweep s e => generate_sweep s e r d 0.5
  | .silence => silenceBuffer r d

/-! ### Filesystem model for `ensure_output_dir` and the run of `main` -/

/-- What sits at the output path `test_audio`, if anything. -/
inductive FsEntry where
  | dir
  | file
deriving DecidableEq

/-- The bits of filesystem state `main` observes: what exists at the
output path, and whether `os.makedirs` would be permitted to create it. -/
structure FS where
  entry : Option FsEntry
  canCreate : Bool
deriving DecidableEq

/-- `ensure_output_dir()`: `if not os.path.exists(OUTPUT_DIR):
os.makedirs(OUTPUT_DIR)`. Returns `none` when `makedirs` raises
(permission failure); note that when ANY entry exists — directory or
plain file — the existence test is true and nothing is created. -/
def ensure_output_dir (fs : FS) : Option FS :=
  match fs.entry with
  | none => if fs.canCreate then some ⟨some .dir, fs.canCreate⟩ else none
  | some _ => some fs

/-- Whether `wavfile.write(os.path.join(OUTPUT_DIR, name), ...)` succeeds:
the output path must hold a directory. -/
def writeOk (fs : FS) : Bool := fs.entry = some .dir

/-- Outcome of a run of `main`: aborted while creating the directory
(before any generation), aborted at a write (recording how many buffers
had been generated and which files had been written), or complete. -/
inductive RunOutcome where
  | dirFail
  | writeFail (generated : ℕ) (written : List String)
  | ok (written : List String)
deriving DecidableEq

/-- Number of buffers generated during a run. -/
def RunOutcome.generatedCount : RunOutcome → ℕ
  | .dirFail => 0
  | .writeFail g _ => g
  | .ok written => written.length

/-- The catalog loop of `main`: for each entry, generate the buffer (pure
computation, always succeeds), then write it (fails when the output path
is not a directory), fail-fast. -/
def runEntries (fs : FS) : List String → ℕ → List String → RunOutcome
  | [], _, written => .ok written.reverse
  | name :: rest, g, written =>
    if writeOk fs then runEntries fs rest (g + 1) (name :: written)
    else .writeFail (g + 1) written.reverse

/-- `main()`: ensure the output directory, then run the catalog. -/
def main_run (fs : FS) : RunOutcome :=
  match ensure_output_dir fs with
  | none => .dirFail
  | some fs' => runEntries fs' catalogNames 0 []

/-! ## Theorems -/

/-- C1: Running the driver's full catalog generates exactly 22 output
files. FALSE: the catalog writes 23 files — the pure tones alone number
12 (6 in step 1 plus 6 very-low-frequency tones in step 6), not 6. -/
theorem catalog_count_ctrex : ¬ (catalog.map Prod.snd).length = 22 := by
  have h : (catalog.map Prod.snd).length = 23 := rfl
  rw [h]
  decide

/-- C1 (amended): the driver's catalog generates exactly 23 output files,
with exactly the enumerated filenames in catalog order (12 pure tones,
4 low-pass noise cutoffs, 3 multi-tone mixtures, 3 sweeps, 1 silence
file), each filename occurring exactly once. -/
theorem catalog_files_spec :
    catalog.map Prod.snd = catalogNames ∧
    catalogNames.length = 23 ∧
    catalogNames.Nodup ∧
    catalog.countP (fun p => p.1.isPure) = 12 ∧
    catalog.countP (fun p => p.1.isNoise) = 4 ∧
    catalog.countP (fun p => p.1.isMulti) = 3 ∧
    catalog.countP (fun p => p.1.isSweep) = 3 ∧
    catalog.countP (fun p => p.1.isSilence) = 1 := by
  refine ⟨rfl, rfl, ?_, rfl, rfl, rfl, rfl, rfl⟩
  decide

/-- C9: a path collision with an existing non-directory file does NOT
abort before generation: `os.path.exists` is true for a plain file, so
`os.makedirs` is skipped, `ensure_output_dir` succeeds, and the run fails
only at the first write — after one buffer has been generated. -/
theorem dir_failure_ctrex :
    main_run ⟨some FsEntry.file, true⟩ ≠ RunOutcome.dirFail ∧
    (main_run ⟨some FsEntry.file, true⟩).generatedCount = 1 := by
  constructor <;> decide

/-- C9 (amended): a directory-creation failure (the output path is absent
and `os.makedirs` fails, e.g. for permissions) is fatal and aborts the run
before any signal generation; but an output path colliding with an
existing non-directory file is not detected at creation time — the run
proceeds and fails at the first file write, after the first catalog
entry's buffer has been generated and with no file written. -/
theorem dir_failure_spec :
    (∀ fs : FS, fs.entry = none → fs.canCreate = false →
      main_run fs = RunOutcome.dirFail) ∧
    (∀ fs : FS, fs.entry = some FsEntry.file →
      main_run fs = RunOutcome.writeFail 1 []) := by
  constructor
  · rintro ⟨entry, canCreate⟩ h1 h2
    simp only at h1 h2
    subst h1; subst h2
    rfl
  · rintro ⟨entry, canCreate⟩ h1
    simp only at h1
    subst h1
    rfl

/-- C9 witness: both branches of `dir_failure_spec` at concrete states. -/
theorem dir_failure_witness :
    main_run ⟨none, false⟩ = RunOutcome.dirFail ∧
    main_run ⟨some FsEntry.file, false⟩ = RunOutcome.writeFail 1 [] :=
  ⟨dir_failure_spec.1 ⟨none, false⟩ rfl rfl,
   dir_failure_spec.2 ⟨some FsEntry.file, false⟩ rfl⟩

/-! ### Quantization and round-trip -/

theorem wrap16_bounds (n : ℤ) : -(2 ^ 15) ≤ wrap16 n ∧ wrap16 n < 2 ^ 15 := by
  unfold wrap16
  omega

theorem wrap16_eq_self (n : ℤ) (h1 : -(2 ^ 15) ≤ n) (h2 : n < 2 ^ 15) :
    wrap16 n = n := by
  unfold wrap16
  omega

theorem realTrunc_bounds (x : ℝ) (c : ℤ) (h1 : -(c : ℝ) ≤ x) (h2 : x ≤ c) :
    -c ≤ realTrunc x ∧ realTrunc x ≤ c := by
  unfold realTrunc
  split
  · constructor
    · calc -c ≤ 0 := by
            have hc : (0 : ℝ) ≤ c := le_trans (by assumption) h2
            exact_mod_cast neg_nonpos_of_nonneg (by exact_mod_cast hc)
        _ ≤ ⌊x⌋ := Int.floor_nonneg.mpr (by assumption)
    · calc ⌊x⌋ ≤ ⌊(c : ℝ)⌋ := Int.floor_le_floor h2
        _ = c := Int.floor_intCast c
  · rename_i hneg
    push_neg at hneg
    constructor
    · calc -c = ⌈(-c : ℤ) * (1 : ℝ)⌉ := by
            rw [mul_one]
            exact (Int.ceil_intCast _).symm
        _ ≤ ⌈x⌉ := Int.ceil_le_ceil (by push_cast; linarith)
    · calc ⌈x⌉ ≤ 0 := Int.ceil_le.mpr (by push_cast; linarith)
        _ ≤ c := by
            have hc : (0 : ℝ) ≤ c := by linarith
            exact_mod_cast hc

/-- C4: the quantize step maps a float sample `x` to `trunc(x * 32767)`
when `|x| ≤ 1` (no clamping needed there), and in general stores the
int16 wrap-around (mod 2^16) of the truncation of `x * 32767`, always
landing in the int16 range — never a saturated value. -/
theorem quantize_spec (x : ℝ) :
    (|x| ≤ 1 → quantize16 x = realTrunc (x * 32767)) ∧
    quantize16 x = wrap16 (realTrunc (x * 32767)) ∧
    -(2 ^ 15) ≤ quantize16 x ∧ quantize16 x < 2 ^ 15 := by
  refine ⟨?_, rfl, (wrap16_bounds _).1, (wrap16_bounds _).2⟩
  intro h
  rw [abs_le] at h
  have hb := realTrunc_bounds (x * 32767) 32767
    (by push_cast; nlinarith [h.1]) (by push_cast; nlinarith [h.2])
  exact wrap16_eq_self _ (by omega) (by omega)

/-- C4 witness: at `x = 1` the quantizer stores exactly 32767. -/
theorem quantize_spec_witness : |(1 : ℝ)| ≤ 1 ∧ quantize16 1 = 32767 := by
  refine ⟨by norm_num, ?_⟩
  have h := (quantize_spec 1).1 (by norm_num)
  rw [h]
  unfold realTrunc
  rw [if_pos (by norm_num)]
  rw [show ((1 : ℝ) * 32767) = ((32767 : ℤ) : ℝ) by norm_num]
  exact Int.floor_intCast 32767

theorem parse_int16_bytes (n : ℤ) (rest : List ℕ)
    (h1 : -(2 ^ 15) ≤ n) (h2 : n < 2 ^ 15) :
    parseBytes (int16ToBytes n ++ rest) = n :: parseBytes rest := by
  have hnn : 0 ≤ n % 2 ^ 16 := Int.emod_nonneg n (by norm_num)
  have hm : ((n % 2 ^ 16).toNat : ℤ) = n % 2 ^ 16 := Int.toNat_of_nonneg hnn
  simp only [int16ToBytes, List.cons_append, List.nil_append, parseBytes,
    List.cons.injEq, and_true]
  have hk : (n % 2 ^ 16).toNat % 256 + 256 * ((n % 2 ^ 16).toNat / 256) =
      (n % 2 ^ 16).toNat := by omega
  rw [hk]
  refine ⟨?_, by simp⟩
  split <;> omega

theorem parse_quantized (data : List ℝ) :
    parseBytes (data.flatMap fun x => int16ToBytes (quantize16 x)) =
      data.map quantize16 := by
  induction data with
  | nil => rfl
  | cons x xs ih =>
    rw [List.flatMap_cons, List.map_cons,
      parse_int16_bytes (quantize16 x) _ (wrap16_bounds _).1 (wrap16_bounds _).2,
      ih]

/-- C5: for every float buffer, writing with `save_wav` and reading the
container back yields the sample rate passed to the writer and one
integer sample per input sample. FALSE as stated for the sample values:
the claimed `round(original * 32767)` disagrees with the code's
truncation already at `x = 1/2` (not an extreme): the stored sample is
16383 while `round(0.5 * 32767) = round(16383.5) = 16384`. -/
theorem roundtrip_round_ctrex :
    (readWav (save_wav [(1 / 2 : ℝ)] 44100)).2 ≠
      [round ((1 / 2 : ℝ) * 32767)] := by
  have hfl : (⌊(1 / 2 : ℝ) * 32767⌋ : ℤ) = 16383 := by
    rw [Int.floor_eq_iff]
    norm_num
  have h1 : (readWav (save_wav [(1 / 2 : ℝ)] 44100)).2 = [16383] := by
    show parseBytes ([(1 / 2 : ℝ)].flatMap fun x => int16ToBytes (quantize16 x)) = _
    rw [parse_quantized]
    simp only [List.map_cons, List.map_nil, List.cons.injEq, and_true]
    rw [quantize16, realTrunc, if_pos (by norm_num), hfl]
    decide
  have h2 : round ((1 / 2 : ℝ) * 32767) = 16384 := by
    rw [round_eq, show ((1 / 2 : ℝ) * 32767 + 1 / 2) = ((16384 : ℤ) : ℝ) by norm_num,
      Int.floor_intCast]
  rw [h1, h2]
  simp

/-- C5 (amended): writing a buffer with `save_wav` and reading the
container back yields the configured sample rate, a sample count equal to
the buffer length, and integer samples equal to the int16 wrap-around of
the truncation toward zero of `original * 32767` (which agrees with the
truncation itself whenever the product is in int16 range). -/
theorem roundtrip_spec (data : List ℝ) (rate : ℕ) :
    (readWav (save_wav data rate)).1 = rate ∧
    (readWav (save_wav data rate)).2.length = data.length ∧
    (readWav (save_wav data rate)).2 =
      data.map fun x => wrap16 (realTrunc (x * 32767)) := by
  refine ⟨rfl, ?_, ?_⟩
  · show (parseBytes (data.flatMap fun x => int16ToBytes (quantize16 x))).length = _
    rw [parse_quantized, List.length_map]
  · show parseBytes (data.flatMap fun x => int16ToBytes (quantize16 x)) = _
    rw [parse_quantized]
    rfl

/-! ### Pure tone generator -/

theorem numSamples_one_one : numSamples 1 1 = 1 := by
  norm_num [numSamples, ratTrunc]

/-- C2: FALSE as stated. The buffer length is `int(r*d)` (truncation),
not `round(r*d)`, and the linspace grid has step `d/N`, not `1/r`, when
`r*d` is not an integer. At `f = 1, r = 2, d = 7/4, a = 1`: the length is
`int(3.5) = 3` while `round(3.5) = 4`; and sample 1 sits at
`t = d/N = 7/12` giving `sin(7π/6) = -1/2`, while the claimed grid
`t = 1/r = 1/2` would give `sin(π) = 0`. -/
theorem sine_wave_ctrex :
    (generate_sine_wave 1 2 (7 / 4) 1).length ≠ (round ((2 : ℚ) * (7 / 4))).toNat ∧
    (generate_sine_wave 1 2 (7 / 4) 1)[1]? ≠
      some ((1 : ℝ) * Real.sin (2 * Real.pi * 1 * (1 / 2))) := by
  have hN : numSamples 2 (7 / 4) = 3 := by
    norm_num [numSamples, ratTrunc]
    rfl
  constructor
  · have hlen : (generate_sine_wave 1 2 (7 / 4) 1).length = 3 := by
      rw [generate_sine_wave, List.length_map, List.length_range, hN]
    have hround : (round ((2 : ℚ) * (7 / 4))).toNat = 4 := by
      norm_num [round_eq]
      rfl
    rw [hlen, hround]
    decide
  · have hgrid : timeGrid 2 (7 / 4) 1 = 7 / 12 := by
      rw [timeGrid, hN]
      push_cast
      norm_num
    have hval : (generate_sine_wave 1 2 (7 / 4) 1)[1]? =
        some ((1 : ℝ) * Real.sin (2 * Real.pi * 1 * (7 / 12))) := by
      rw [generate_sine_wave, List.getElem?_map,
        List.getElem?_range (by rw [hN]; norm_num), Option.map_some', hgrid]
    rw [hval]
    have hs1 : Real.sin (2 * Real.pi * 1 * (7 / 12)) = -(1 / 2) := by
      rw [show (2 * Real.pi * 1 * (7 / 12) : ℝ) = Real.pi / 6 + Real.pi by ring,
        Real.sin_add_pi, Real.sin_pi_div_six]
    have hs2 : Real.sin (2 * Real.pi * 1 * (1 / 2)) = 0 := by
      rw [show (2 * Real.pi * 1 * (1 / 2) : ℝ) = Real.pi by ring, Real.sin_pi]
    rw [hs1, hs2]
    simp only [ne_eq, Option.some.injEq]
    norm_num

/-- C2 (amended): for every frequency, amplitude, sample rate `r` and
duration `d`, the pure tone generator returns a buffer of length
`int(r*d)` (truncation toward zero, `numSamples`), whose `i`-th sample is
`a * sin(2π f t_i)` on the left-closed linspace grid `t_i = i*d/N` with
`N = numSamples r d`; whenever `r*d` is an integer (as for every catalog
entry) this grid coincides with the claimed `t_i = i/r`. -/
theorem sine_wave_spec (f a : ℝ) (r d : ℚ) :
    (generate_sine_wave f r d a).length = numSamples r d ∧
    (∀ i, i < numSamples r d →
      (generate_sine_wave f r d a)[i]? =
        some (a * Real.sin (2 * Real.pi * f * timeGrid r d i))) ∧
    ((r * d : ℚ) = (numSamples r d : ℚ) → ∀ i, i < numSamples r d →
      timeGrid r d i = (i : ℝ) / (r : ℝ)) := by
  refine ⟨?_, ?_, ?_⟩
  · rw [generate_sine_wave, List.length_map, List.length_range]
  · intro i hi
    rw [generate_sine_wave, List.getElem?_map, List.getElem?_range hi,
      Option.map_some']
  · intro h i hi
    have hNpos : 0 < numSamples r d := Nat.zero_lt_of_lt hi
    have hNne : ((numSamples r d : ℕ) : ℚ) ≠ 0 := by
      exact_mod_cast Nat.pos_iff_ne_zero.mp hNpos
    have hrd : r * d ≠ 0 := by rw [h]; exact hNne
    have hr : r ≠ 0 := left_ne_zero_of_mul hrd
    have hd : d ≠ 0 := right_ne_zero_of_mul hrd
    have hrR : (r : ℝ) ≠ 0 := by exact_mod_cast hr
    have hdR : (d : ℝ) ≠ 0 := by exact_mod_cast hd
    have hcast : ((numSamples r d : ℕ) : ℝ) = (r : ℝ) * (d : ℝ) := by
      have := congrArg (fun q : ℚ => (q : ℝ)) h
      push_cast at this
      rw [← this]
    rw [timeGrid, hcast]
    field_simp
    ring

/-- C2 witness: the amended claim at `f = a = 1`, `r = d = 1`. -/
theorem sine_wave_spec_witness :
    (generate_sine_wave 1 1 1 1).length = 1 ∧
    (generate_sine_wave 1 1 1 1)[0]? =
      some ((1 : ℝ) * Real.sin (2 * Real.pi * 1 * timeGrid 1 1 0)) ∧
    timeGrid 1 1 0 = ((0 : ℕ) : ℝ) / ((1 : ℚ) : ℝ) := by
  have h := sine_wave_spec 1 1 1 1
  refine ⟨h.1.trans numSamples_one_one, ?_, ?_⟩
  · exact h.2.1 0 (by rw [numSamples_one_one]; norm_num)
  · exact h.2.2 (by rw [numSamples_one_one]; norm_num) 0
      (by rw [numSamples_one_one]; norm_num)

/-! ### Multi-tone generator -/

theorem peak_nonneg (xs : List ℝ) : 0 ≤ peak xs := by
  induction xs with
  | nil => exact le_refl 0
  | cons x xs ih => exact le_trans ih (le_max_right _ _)

theorem peak_cons (x : ℝ) (xs : List ℝ) : peak (x :: xs) = max |x| (peak xs) := rfl

theorem peak_map_mul (c : ℝ) (xs : List ℝ) :
    peak (xs.map fun x => x * c) = |c| * peak xs := by
  induction xs with
  | nil => simp [peak]
  | cons x xs ih =>
    rw [List.map_cons, peak_cons, peak_cons, ih,
      mul_max_of_nonneg _ _ (abs_nonneg c), abs_mul, mul_comm |x| |c|]

/-- C3: the multi-tone generator leaves the summed buffer unscaled when
its peak absolute value is at most 1, and otherwise returns the sum
scaled by `0.9 / peak`, whose peak absolute value is then exactly 0.9. -/
theorem multi_tone_norm_spec (freqs amps : List ℝ) (r d : ℚ) :
    (1 < peak (multiToneSum freqs amps r d) →
      generate_multi_tone freqs amps r d =
        (multiToneSum freqs amps r d).map
          (fun x => x / peak (multiToneSum freqs amps r d) * 0.9) ∧
      peak (generate_multi_tone freqs amps r d) = 0.9) ∧
    (¬ 1 < peak (multiToneSum freqs amps r d) →
      generate_multi_tone freqs amps r d = multiToneSum freqs amps r d) := by
  constructor
  · intro h
    have h0 : (0 : ℝ) < peak (multiToneSum freqs amps r d) :=
      lt_trans one_pos h
    have he : generate_multi_tone freqs amps r d =
        (multiToneSum freqs amps r d).map
          (fun x => x / peak (multiToneSum freqs amps r d) * 0.9) := by
      simp only [generate_multi_tone]
      rw [if_pos h]
    refine ⟨he, ?_⟩
    rw [he]
    have hfun : (fun x : ℝ => x / peak (multiToneSum freqs amps r d) * 0.9) =
        fun x : ℝ => x * (0.9 / peak (multiToneSum freqs amps r d)) := by
      funext x
      ring
    rw [hfun, peak_map_mul,
      abs_of_nonneg (by positivity)]
    field_simp
  · intro h
    simp only [generate_multi_tone]
    rw [if_neg h]

/-- C3 witness: at `freqs = [1], amps = [2], r = 4, d = 3/4` the unscaled
sum is `[0, 2, 0]` with peak 2 > 1, and the returned buffer's peak is
exactly 0.9. -/
theorem multi_tone_norm_witness :
    peak (generate_multi_tone [(1 : ℝ)] [(2 : ℝ)] 4 (3 / 4)) = 0.9 := by
  have hN : numSamples 4 (3 / 4) = 3 := by
    norm_num [numSamples, ratTrunc]
    rfl
  have ht0 : timeGrid 4 (3 / 4) 0 = 0 := by
    rw [timeGrid]
    norm_num
  have ht1 : timeGrid 4 (3 / 4) 1 = 1 / 4 := by
    rw [timeGrid, hN]
    push_cast
    norm_num
  have ht2 : timeGrid 4 (3 / 4) 2 = 1 / 2 := by
    rw [timeGrid, hN]
    push_cast
    norm_num
  have hms : multiToneSum [(1 : ℝ)] [(2 : ℝ)] 4 (3 / 4) = [0, 2, 0] := by
    rw [multiToneSum, hN]
    rw [show List.range 3 = [0, 1, 2] from rfl]
    simp only [List.map_cons, List.map_nil, List.zip_cons_cons, List.zip_nil_right,
      List.sum_cons, List.sum_nil, add_zero]
    rw [ht0, ht1, ht2]
    rw [show (2 * Real.pi * 1 * 0 : ℝ) = 0 by ring,
      show (2 * Real.pi * 1 * (1 / 4) : ℝ) = Real.pi / 2 by ring,
      show (2 * Real.pi * 1 * (1 / 2) : ℝ) = Real.pi by ring,
      Real.sin_zero, Real.sin_pi_div_two, Real.sin_pi]
    norm_num
  have hpk : peak (multiToneSum [(1 : ℝ)] [(2 : ℝ)] 4 (3 / 4)) = 2 := by
    rw [hms, peak_cons, peak_cons, peak_cons]
    show max |(0 : ℝ)| (max |(2 : ℝ)| (max |(0 : ℝ)| 0)) = 2
    rw [abs_of_nonneg (by norm_num : (0:ℝ) ≤ 0),
      abs_of_nonneg (by norm_num : (0:ℝ) ≤ 2)]
    norm_num
  have h := (multi_tone_norm_spec [(1 : ℝ)] [(2 : ℝ)] 4 (3 / 4)).1
    (by rw [hpk]; norm_num)
  exact h.2

/-! ### Unequal frequency/amplitude lists -/

theorem zip_take_min {α β : Type} :
    ∀ (xs : List α) (ys : List β),
      (xs.take (min xs.length ys.length)).zip
        (ys.take (min xs.length ys.length)) = xs.zip ys := by
  intro xs
  induction xs with
  | nil => intro ys; simp
  | cons x xs ih =>
    intro ys
    cases ys with
    | nil => simp
    | cons y ys =>
      simp only [List.length_cons, Nat.succ_min_succ, List.take_succ_cons,
        List.zip_cons_cons, List.cons.injEq, true_and]
      exact ih ys

/-- C10: the multi-tone generator, fed frequency and amplitude lists of
unequal length, totals normally (no error path exists): it depends only on
`zip frequencies amplitudes`, i.e. on the first
`min (len frequencies) (len amplitudes)` pairs, the excess elements of the
longer list being ignored. -/
theorem multi_tone_unequal_lists (freqs amps : List ℝ) (r d : ℚ) :
    generate_multi_tone freqs amps r d =
      generate_multi_tone (freqs.take (min freqs.length amps.length))
        (amps.take (min freqs.length amps.length)) r d := by
  have hsum : multiToneSum (freqs.take (min freqs.length amps.length))
      (amps.take (min freqs.length amps.length)) r d =
      multiToneSum freqs amps r d := by
    rw [multiToneSum, multiToneSum, zip_take_min]
  simp only [generate_multi_tone]
  rw [hsum]

/-! ### Frequency sweep -/

/-- C6: every sweep sample is `a * sin(φ(t_i))` with
`φ(t) = 2π (s t + (e - s) t² / (2d))` on the generator's time grid, and
the instantaneous frequency — the derivative of `φ/(2π)` — is
`s + (e - s) t / d`, which equals `start_freq` at `t = 0` and `end_freq`
at `t = d`. -/
theorem sweep_spec (s e a : ℝ) (r d : ℚ) (hd : (d : ℝ) ≠ 0) :
    (∀ i, i < numSamples r d →
      (generate_sweep s e r d a)[i]? =
        some (a * Real.sin (sweepPhase s e d (timeGrid r d i)))) ∧
    (∀ t : ℝ, HasDerivAt (fun u => sweepPhase s e d u / (2 * Real.pi))
      (s + (e - s) * t / (d : ℝ)) t) ∧
    s + (e - s) * 0 / (d : ℝ) = s ∧
    s + (e - s) * (d : ℝ) / (d : ℝ) = e := by
  refine ⟨?_, ?_, by ring, by field_simp⟩
  · intro i hi
    rw [generate_sweep, List.getElem?_map, List.getElem?_range hi,
      Option.map_some']
  · intro t
    have h2pi : (2 * Real.pi : ℝ) ≠ 0 := by positivity
    have hfun : (fun u : ℝ => sweepPhase s e d u / (2 * Real.pi)) =
        fun u : ℝ => s * u + (e - s) / (2 * (d : ℝ)) * u ^ 2 := by
      funext u
      rw [sweepPhase]
      field_simp
      ring
    rw [hfun]
    have h1 : HasDerivAt (fun u : ℝ => s * u) (s * 1) t :=
      (hasDerivAt_id' t).const_mul s
    have h2 : HasDerivAt (fun u : ℝ => u ^ 2) (((2 : ℕ) : ℝ) * t ^ 1) t :=
      hasDerivAt_pow 2 t
    have h3 := h1.add (h2.const_mul ((e - s) / (2 * (d : ℝ))))
    convert h3 using 1
    push_cast
    field_simp
    ring

/-- C6 witness: the sweep specification applied at
`s = 0, e = 1, a = 1, r = 1, d = 1`. -/
theorem sweep_spec_witness :
    (generate_sweep 0 1 1 1 1)[0]? =
      some (1 * Real.sin (sweepPhase 0 1 1 (timeGrid 1 1 0))) ∧
    HasDerivAt (fun u => sweepPhase 0 1 1 u / (2 * Real.pi))
      (0 + (1 - 0) * 0 / ((1 : ℚ) : ℝ)) 0 := by
  have h := sweep_spec 0 1 1 1 1 (by norm_num)
  exact ⟨h.1 0 (by rw [numSamples_one_one]; norm_num), h.2.1 0⟩

/-! ### Low-pass noise: length preservation -/

theorem lfilterGo_length (b a : List ℝ) :
    ∀ (x px py : List ℝ), (lfilterGo b a x px py).length = x.length := by
  intro x
  induction x with
  | nil => intro px py; rfl
  | cons xn rest ih =>
    intro px py
    simp only [lfilterGo, List.length_cons, ih]

theorem lfilter_length (b a x : List ℝ) : (lfilter b a x).length = x.length :=
  lfilterGo_length b a x [] []

theorem filtfilt_length (b a x : List ℝ) :
    (filtfilt b a x).length = x.length := by
  simp only [filtfilt, List.length_take, List.length_drop, List.length_reverse,
    lfilter_length, List.length_append, oddPadLeft, oddPadRight,
    List.length_map, List.length_range]
  omega

/-- C7: the low-pass noise generator returns a buffer of exactly the
length of the drawn noise buffer (`int(r*d)` samples); zero-phase
`filtfilt` preserves the length of any input, and the filtered noise
is returned directly, with no amplitude re-normalization step. -/
theorem lowpass_length_spec (b a : List ℝ) (r d : ℚ) (noiseDraw : ℕ → ℝ) :
    (generate_lowpass_noise b a r d noiseDraw).length = numSamples r d ∧
    (∀ x : List ℝ, (filtfilt b a x).length = x.length) ∧
    generate_lowpass_noise b a r d noiseDraw =
      filtfilt b a ((List.range (numSamples r d)).map noiseDraw) := by
  refine ⟨?_, filtfilt_length b a, rfl⟩
  rw [generate_lowpass_noise, filtfilt_length, List.length_map,
    List.length_range]

/-! ### Determinism of the non-noise generators -/

/-- C8: every generator except low-pass noise is deterministic: the
rendered buffer of a pure-tone, multi-tone, sweep or silence catalog
entry does not depend on the random stream (nor on the filter-design
function), so the corresponding output files are identical across runs;
only the low-pass-noise branch reads the random stream. -/
theorem render_deterministic (design1 design2 : ℝ → List ℝ × List ℝ)
    (rng1 rng2 : ℕ → ℝ) (r d : ℚ) (s : GenSpec) (h : s.isNoise = false) :
    renderSpec design1 rng1 r d s = renderSpec design2 rng2 r d s ∧
    save_wav (renderSpec design1 rng1 r d s) 44100 =
      save_wav (renderSpec design2 rng2 r d s) 44100 := by
  have hmain : renderSpec design1 rng1 r d s = renderSpec design2 rng2 r d s := by
    cases s with
    | pureTone f => rfl
    | lowpassNoise c => simp [GenSpec.isNoise] at h
    | multiTone freqs amps => rfl
    | sweep sf ef => rfl
    | silence => rfl
  exact ⟨hmain, by rw [hmain]⟩

/-- C8 witness: a silence entry renders identically under two different
random streams and filter designs. -/
theorem render_deterministic_witness :
    renderSpec (fun _ => ([], [])) (fun _ => 0) 44100 5 GenSpec.silence =
      renderSpec (fun c => ([c], [c])) (fun _ => 1) 44100 5 GenSpec.silence :=
  (render_deterministic (fun _ => ([], [])) (fun c => ([c], [c]))
    (fun _ => 0) (fun _ => 1) 44100 5 GenSpec.silence rfl).1

end GenAudio
